import Mathlib

/-
Shallow embedding of the vito-cli transaction retrieval pipeline
(src/config.rs and src/commands/tx.rs), together with proofs about it.

Modelling conventions:
* addresses and 32-byte transaction hashes are byte lists (List Nat);
* U256 values are Nat, and `to_string` is decimal `toString`;
* the remote endpoint (ethers Provider + SafeTxPool contract) is a
  `ChainOracle` record giving the result of every remote call;
* `execute` returns, besides its outcome, the ordered trace of network
  calls it performed and the list of hashes it printed a
  "Warning: Failed to fetch details for transaction ..." line for.
The RPC-URL handling (`Provider::try_from`) is purely local string
parsing with no network effect and is not modelled.
-/

namespace Vito

/- Configuration constants, from src/config.rs. -/

def MAINNET : Nat := 1

def GOERLI : Nat := 5

def SEPOLIA : Nat := 11155111

def POLYGON : Nat := 137

def ARBITRUM : Nat := 42161

def OPTIMISM : Nat := 10

def BASE : Nat := 8453

def GNOSIS : Nat := 100

/-- Map of network IDs to Safe transaction pool addresses (the
`SAFE_TX_POOL_ADDRESSES` HashMap in src/config.rs, as a total function
to `Option`). -/
def SAFE_TX_POOL_ADDRESSES (network_id : Nat) : Option String :=
  if network_id = MAINNET then some "0x6b8e1f0D2c34A0AeaD9A25B6966f7C0CAD653E5c"
  else if network_id = GOERLI then some "0x3A4fA54b8AaB5E2E2DBD0a41f41f629e4e71e2E7"
  else if network_id = SEPOLIA then some "0xa2ad21dc93B362570D0159b9E3A2fE5D8ecA0424"
  else if network_id = POLYGON then some "0xA3B9Ff95a78e04845a82ee5F75595E7bDaB8723D"
  else if network_id = ARBITRUM then some "0x7c4A2Db70E5f39BA5Db11B8A942f02A8D3B3aA1B"
  else if network_id = OPTIMISM then some "0x6E4d941A6fAD76B3d26E0c5447B4f5A7EfcA8ab8"
  else if network_id = BASE then some "0x2d340e22C5A33c1Ea01DAC41E331b7FE4c033C3b"
  else if network_id = GNOSIS then some "0x8d0C7BC9c4c588534dC1BF96d3ee9A4bCcBf28C7"
  else none

/-- Default fallback address if network is not recognized (src/config.rs). -/
def DEFAULT_SAFE_TX_POOL_ADDRESS : String := "0x6b8e1f0D2c34A0AeaD9A25B6966f7C0CAD653E5c"

/-- Get network name from chain ID for display purposes (src/config.rs). -/
def get_network_name (chain_id : Nat) : String :=
  if chain_id = MAINNET then "Ethereum Mainnet"
  else if chain_id = GOERLI then "Goerli Testnet"
  else if chain_id = SEPOLIA then "Sepolia Testnet"
  else if chain_id = POLYGON then "Polygon"
  else if chain_id = ARBITRUM then "Arbitrum"
  else if chain_id = OPTIMISM then "Optimism"
  else if chain_id = BASE then "Base"
  else if chain_id = GNOSIS then "Gnosis Chain"
  else "Unknown Network"

/-- Get Safe transaction pool address for a network (src/config.rs):
HashMap lookup with `unwrap_or` on the default. -/
def get_safe_tx_pool_address (network_id : Nat) : String :=
  (SAFE_TX_POOL_ADDRESSES network_id).getD DEFAULT_SAFE_TX_POOL_ADDRESS

/-- The eight chain IDs present in the configuration tables. -/
def recognizedChainIds : List Nat :=
  [MAINNET, GOERLI, SEPOLIA, POLYGON, ARBITRUM, OPTIMISM, BASE, GNOSIS]

/- Hex encoding and decoding, modelling the `hex` crate used by
src/commands/tx.rs (`hex::encode` is lowercase) and the hex parsing done
by `Address::from_str` / `H256::from_str` (fixed-hash: an optional "0x"
prefix is stripped, hex digits of either case are accepted, and the digit
count must be exactly twice the byte width). -/

/-- Value of one hex digit character, either case. -/
def hexVal (c : Char) : Option Nat :=
  if 48 ≤ c.toNat ∧ c.toNat ≤ 57 then some (c.toNat - 48)
  else if 97 ≤ c.toNat ∧ c.toNat ≤ 102 then some (c.toNat - 87)
  else if 65 ≤ c.toNat ∧ c.toNat ≤ 70 then some (c.toNat - 55)
  else none

/-- Lowercase hex digit character for a nibble. -/
def hexDigitChar (n : Nat) : Char :=
  match n with
  | 0 => '0' | 1 => '1' | 2 => '2' | 3 => '3' | 4 => '4'
  | 5 => '5' | 6 => '6' | 7 => '7' | 8 => '8' | 9 => '9'
  | 10 => 'a' | 11 => 'b' | 12 => 'c' | 13 => 'd' | 14 => 'e'
  | _ => 'f'

/-- Decode one byte from two hex digit characters. -/
def decodePair (c1 c2 : Char) : Option Nat :=
  match hexVal c1, hexVal c2 with
  | some h, some l => some (16 * h + l)
  | _, _ => none

/-- Decode a hex string (as a char list) into bytes; fails on a non-hex
character or an odd digit count. -/
def hexDecodeBytes : List Char → Option (List Nat)
  | [] => some []
  | [_] => none
  | c1 :: c2 :: rest =>
    match decodePair c1 c2, hexDecodeBytes rest with
    | some b, some bs => some (b :: bs)
    | _, _ => none

/-- Lowercase hex rendering of one byte (two characters). -/
def byteToHex (b : Nat) : List Char :=
  [hexDigitChar (b / 16 % 16), hexDigitChar (b % 16)]

/-- Lowercase hex rendering of a byte list, as characters. -/
def hexEncodeBytes (bs : List Nat) : List Char :=
  (bs.map byteToHex).flatten

/-- Lowercase hex rendering of a byte list, as a string (`hex::encode`,
and also the `{:x}` rendering of fixed-hash values, which zero-pads every
byte to two digits). -/
def hexEncode (bs : List Nat) : String :=
  String.mk (hexEncodeBytes bs)

/-- Parse a fixed-width hex value of `nbytes` bytes, modelling fixed-hash
`FromStr` (used for `Address::from_str` and `H256::from_str`): strip an
optional "0x" prefix, then require exactly `2 * nbytes` hex digits. -/
def parseFixedHex (nbytes : Nat) (s : String) : Option (List Nat) :=
  let cs := s.data
  let cs := if cs.take 2 = ['0', 'x'] then cs.drop 2 else cs
  if cs.length = 2 * nbytes then hexDecodeBytes cs else none

/-- `Address::from_str` on 20-byte addresses. -/
def parseAddress (s : String) : Option (List Nat) :=
  parseFixedHex 20 s

/-- `H256::from_str` on 32-byte transaction hashes. -/
def parseHash (s : String) : Option (List Nat) :=
  parseFixedHex 32 s

/-- The all-zero 20-byte address, `Address::zero()`. -/
def zeroAddress : List Nat := List.replicate 20 0

/-- Hex rendering with the "0x" prefix, as the code produces with
`format!` for hashes, addresses, data and signatures. -/
def renderBytes (bs : List Nat) : String :=
  "0x" ++ hexEncode bs

/- Data model and oracle for src/commands/tx.rs. -/

/-- Result tuple of the contract's `getTxDetails` call:
(safe, to, value, data, operation, proposer, nonce). -/
structure TxDetails where
  safe : List Nat
  to_addr : List Nat
  value : Nat
  data : List Nat
  operation : Nat
  proposer : List Nat
  nonce : Nat
deriving DecidableEq

/-- The `TransactionData` struct of src/commands/tx.rs: the serialized,
user-facing shape of one transaction. -/
structure TransactionData where
  hash : String
  safe : String
  to_addr : String
  value : String
  data : String
  operation : Nat
  proposer : String
  nonce : String
  signatures : List String
deriving DecidableEq

/-- Results of the remote calls the command performs, one field per
endpoint: the provider's `get_chainid` and `get_code`, and the SafeTxPool
contract's three view functions. `Except.error` models a failed call. -/
structure ChainOracle where
  get_chainid : Except String Nat
  get_code : List Nat → Except String (List Nat)
  get_tx_details : List Nat → Except String TxDetails
  get_signatures : List Nat → Except String (List (List Nat))
  get_pending_tx_hashes : List Nat → Except String (List (List Nat))

/-- One network round trip, recorded in the order the code performs it. -/
inductive NetCall where
  | getChainId
  | getCode (addr : List Nat)
  | callGetTxDetails (h : List Nat)
  | callGetSignatures (h : List Nat)
  | callGetPendingTxHashes (addr : List Nat)
deriving DecidableEq

/-- The distinct error outcomes of `execute`, one per `bail!`/`context`
site in src/commands/tx.rs, carrying the data the message interpolates. -/
inductive ExecError where
  | invalidSafeAddress
  | chainIdFailed
  | walletQueryFailed
  | walletNotFound (network : String)
  | invalidPoolOverride
  | invalidPoolDefault
  | poolQueryFailed
  | poolNotFound (addr : List Nat) (network : String)
  | invalidHashFormat
  | detailsFetchFailed (h : List Nat)
  | txNotFound
  | signaturesFetchFailed (h : List Nat)
  | hashListFetchFailed
deriving DecidableEq

/-- Successful outcomes: one record (single lookup), a sorted record list
(bulk), or the explicit "No pending transactions found" result. -/
inductive ExecOutput where
  | single (tx : TransactionData)
  | multiple (txs : List TransactionData)
  | noPending
deriving DecidableEq

deriving instance DecidableEq for Except

/-- What one invocation of `execute` produces: its outcome, the ordered
trace of network calls it made, and the hashes for which it printed a
"Warning: Failed to fetch details for transaction ..." line. -/
structure ExecResult where
  outcome : Except ExecError ExecOutput
  calls : List NetCall
  warnings : List (List Nat)
deriving DecidableEq

/-- Construction of the `TransactionData` struct fields, exactly as both
the single-lookup and the bulk arm of src/commands/tx.rs build them:
`format!("0x{}", hex::encode(..))` for hash and data,
`format!("0x{:x}", ..)` for addresses, `to_string()` for U256 values,
and `as u8` (modelled by `% 256`) on the operation. -/
def mkTransactionData (h : List Nat) (d : TxDetails) (sigs : List String) :
    TransactionData :=
  { hash := "0x" ++ hexEncode h
  , safe := "0x" ++ hexEncode d.safe
  , to_addr := "0x" ++ hexEncode d.to_addr
  , value := toString d.value
  , data := "0x" ++ hexEncode d.data
  , operation := d.operation % 256
  , proposer := "0x" ++ hexEncode d.proposer
  , nonce := toString d.nonce
  , signatures := sigs }

/-- Per-hash results accumulated by the bulk loop of src/commands/tx.rs:
the `transactions` vector, the contract calls issued, and the hashes a
details-failure warning was printed for. -/
structure BulkOut where
  records : List TransactionData
  calls : List NetCall
  warnings : List (List Nat)
deriving DecidableEq

/-- The bulk `for tx_hash in all_tx_hashes` loop: on details success a
record is always built (signature failure degrades to an empty signature
vector, with no warning); on details failure the hash is skipped and a
warning naming it is printed. -/
def bulkFetch (o : ChainOracle) : List (List Nat) → BulkOut
  | [] => ⟨[], [], []⟩
  | h :: rest =>
    let b := bulkFetch o rest
    match o.get_tx_details h with
    | .ok d =>
      match o.get_signatures h with
      | .ok sigs =>
        ⟨mkTransactionData h d (sigs.map renderBytes) :: b.records,
         NetCall.callGetTxDetails h :: NetCall.callGetSignatures h :: b.calls,
         b.warnings⟩
      | .error _ =>
        ⟨mkTransactionData h d [] :: b.records,
         NetCall.callGetTxDetails h :: NetCall.callGetSignatures h :: b.calls,
         b.warnings⟩
    | .error _ => ⟨b.records, NetCall.callGetTxDetails h :: b.calls, h :: b.warnings⟩

/-- Sort key used by the bulk arm's `sort_by` closure:
`nonce.parse::<u64>().unwrap_or(0)`. Rust's `u64` parsing accepts an
optional leading `+`, then one or more ASCII digits, and fails on
overflow past `u64::MAX`. -/
def parseU64 (s : String) : Option Nat :=
  let ds := match s.data with
    | '+' :: rest => rest
    | cs => cs
  if ds = [] then none
  else if ds.all (fun c => c.isDigit) then
    let v := ds.foldl (fun acc c => acc * 10 + (c.toNat - 48)) 0
    if v < 2 ^ 64 then some v else none
  else none

/-- Effective nonce key: `a.nonce.parse::<u64>().unwrap_or(0)`. -/
def nonceKey (t : TransactionData) : Nat :=
  (parseU64 t.nonce).getD 0

/-- Comparison relation of the bulk sort. -/
def nonceLe (a b : TransactionData) : Prop :=
  nonceKey a ≤ nonceKey b

instance : DecidableRel nonceLe :=
  fun a b => Nat.decLe (nonceKey a) (nonceKey b)

instance : IsTotal TransactionData nonceLe :=
  ⟨fun a b => Nat.le_total (nonceKey a) (nonceKey b)⟩

instance : IsTrans TransactionData nonceLe :=
  ⟨fun _ _ _ => Nat.le_trans⟩

/-- The bulk arm's `transactions.sort_by(..)`. `Vec::sort_by` is a stable
sort, so it is modelled by a stable sorting algorithm over the same
comparator. -/
def sortByNonce (l : List TransactionData) : List TransactionData :=
  l.insertionSort nonceLe

/-- Everything src/commands/tx.rs does after the pool contract has been
verified: the `if let Some(tx_hash) = hash` single-lookup arm, else the
bulk arm. `calls` and `warnings` are those of this phase only; `execute`
prepends the verification-phase calls. -/
def fetchPhase (o : ChainOracle) (safe_address : List Nat)
    (hash : Option String) : ExecResult :=
  match hash with
  | some tx_hash =>
    match parseHash tx_hash with
    | none => ⟨.error .invalidHashFormat, [], []⟩
    | some h =>
      match o.get_tx_details h with
      | .error _ =>
        ⟨.error (.detailsFetchFailed h), [NetCall.callGetTxDetails h], []⟩
      | .ok tx_details =>
        if tx_details.proposer = zeroAddress then
          ⟨.error .txNotFound, [NetCall.callGetTxDetails h], []⟩
        else
          match o.get_signatures h with
          | .error _ =>
            ⟨.error (.signaturesFetchFailed h),
             [NetCall.callGetTxDetails h, NetCall.callGetSignatures h], []⟩
          | .ok signatures =>
            ⟨.ok (.single (mkTransactionData h tx_details
                (signatures.map renderBytes))),
             [NetCall.callGetTxDetails h, NetCall.callGetSignatures h], []⟩
  | none =>
    match o.get_pending_tx_hashes safe_address with
    | .error _ =>
      ⟨.error .hashListFetchFailed,
       [NetCall.callGetPendingTxHashes safe_address], []⟩
    | .ok all_tx_hashes =>
      if all_tx_hashes = [] then
        ⟨.ok .noPending, [NetCall.callGetPendingTxHashes safe_address], []⟩
      else
        let b := bulkFetch o all_tx_hashes
        ⟨.ok (.multiple (sortByNonce b.records)),
         NetCall.callGetPendingTxHashes safe_address :: b.calls,
         b.warnings⟩

/-- Choice of the transaction pool address (the `if let Some(custom_address)
= tx_pool` block): an override always wins over the network default, and
each is parsed with `Address::from_str`. -/
def resolve_pool_address (tx_pool : Option String) (network_id : Nat) :
    Except ExecError (List Nat) :=
  match tx_pool with
  | some custom_address =>
    match parseAddress custom_address with
    | none => .error .invalidPoolOverride
    | some a => .ok a
  | none =>
    match parseAddress (get_safe_tx_pool_address network_id) with
    | none => .error .invalidPoolDefault
    | some a => .ok a

/-- The `execute` function of src/commands/tx.rs (the `rpc` argument is
local URL handling with no network effect and is not modelled): validate
the safe address, query the chain ID, check wallet code, resolve and
parse the pool address, check pool code, then run the single-lookup or
bulk fetch phase. -/
def execute (safe : String) (hash : Option String) (tx_pool : Option String)
    (o : ChainOracle) : ExecResult :=
  match parseAddress safe with
  | none => ⟨.error .invalidSafeAddress, [], []⟩
  | some safe_address =>
    match o.get_chainid with
    | .error _ => ⟨.error .chainIdFailed, [NetCall.getChainId], []⟩
    | .ok network_id =>
      let network_name := get_network_name network_id
      match o.get_code safe_address with
      | .error _ =>
        ⟨.error .walletQueryFailed,
         [NetCall.getChainId, NetCall.getCode safe_address], []⟩
      | .ok code =>
        if code = [] then
          ⟨.error (.walletNotFound network_name),
           [NetCall.getChainId, NetCall.getCode safe_address], []⟩
        else
          match resolve_pool_address tx_pool network_id with
          | .error e =>
            ⟨.error e, [NetCall.getChainId, NetCall.getCode safe_address], []⟩
          | .ok tx_pool_address =>
            match o.get_code tx_pool_address with
            | .error _ =>
              ⟨.error .poolQueryFailed,
               [NetCall.getChainId, NetCall.getCode safe_address,
                NetCall.getCode tx_pool_address], []⟩
            | .ok contract_code =>
              if contract_code = [] then
                ⟨.error (.poolNotFound tx_pool_address network_name),
                 [NetCall.getChainId, NetCall.getCode safe_address,
                  NetCall.getCode tx_pool_address], []⟩
              else
                let fr := fetchPhase o safe_address hash
                ⟨fr.outcome,
                 [NetCall.getChainId, NetCall.getCode safe_address,
                  NetCall.getCode tx_pool_address] ++ fr.calls,
                 fr.warnings⟩

/-- Records contained in a successful outcome (empty for errors and for
the "no pending transactions" result). -/
def outputRecords (r : ExecResult) : List TransactionData :=
  match r.outcome with
  | .ok (.single tx) => [tx]
  | .ok (.multiple txs) => txs
  | _ => []

/- Concrete fixtures used by witnesses and counterexamples. -/

/-- A syntactically valid Safe wallet address. -/
def safeS : String := "0x1111111111111111111111111111111111111111"

/-- Byte form of `safeS`. -/
def safeBytes : List Nat := List.replicate 20 17

/-- A syntactically valid pool override address. -/
def poolS : String := "0x2222222222222222222222222222222222222222"

/-- Byte form of `poolS`. -/
def poolBytes : List Nat := List.replicate 20 34

/-- Concrete 32-byte transaction hashes. -/
def hash1 : List Nat := List.replicate 32 1

def hash2 : List Nat := List.replicate 32 2

def hash3 : List Nat := List.replicate 32 3

/-- Details of an existing transaction (non-zero proposer). -/
def okDetails : TxDetails :=
  ⟨List.replicate 20 17, List.replicate 20 5, 1000, [1, 2, 3], 0,
   List.replicate 20 9, 7⟩

/-- Details whose proposer is the all-zero sentinel. -/
def zeroPropDetails : TxDetails :=
  ⟨List.replicate 20 17, List.replicate 20 5, 1000, [1, 2, 3], 0,
   List.replicate 20 0, 7⟩

/-- Oracle on which every call succeeds. -/
def baseOracle : ChainOracle :=
  { get_chainid := .ok 1
  , get_code := fun _ => .ok [96]
  , get_tx_details := fun _ => .ok okDetails
  , get_signatures := fun _ => .ok [[13, 14]]
  , get_pending_tx_hashes := fun _ => .ok [hash1] }

/- Hex round-trip lemmas. -/

/-- The sixteen lowercase hex digit characters. -/
def lowerHexChars : List Char :=
  "0123456789abcdef".data

theorem lowerHex_spec :
    ∀ c ∈ lowerHexChars,
      hexVal c ≠ none ∧ (hexVal c).getD 0 < 16 ∧
        hexDigitChar ((hexVal c).getD 0) = c := by
  decide

theorem decodePair_lower {c1 c2 : Char} (h1 : c1 ∈ lowerHexChars)
    (h2 : c2 ∈ lowerHexChars) :
    ∃ b, decodePair c1 c2 = some b ∧ byteToHex b = [c1, c2] := by
  have s1 := lowerHex_spec c1 h1
  have s2 := lowerHex_spec c2 h2
  cases e1 : hexVal c1 with
  | none => exact absurd e1 s1.1
  | some v1 =>
    cases e2 : hexVal c2 with
    | none => exact absurd e2 s2.1
    | some v2 =>
      rw [e1] at s1
      rw [e2] at s2
      simp only [Option.getD_some] at s1 s2
      refine ⟨16 * v1 + v2, ?_, ?_⟩
      · simp [decodePair, e1, e2]
      · have hq : (16 * v1 + v2) / 16 % 16 = v1 := by omega
        have hr : (16 * v1 + v2) % 16 = v2 := by omega
        simp only [byteToHex, hq, hr, s1.2.2, s2.2.2]

theorem hexDecode_encode_len :
    ∀ (n : Nat) (cs : List Char), cs.length ≤ n →
      (∀ c ∈ cs, c ∈ lowerHexChars) → cs.length % 2 = 0 →
      ∃ bs, hexDecodeBytes cs = some bs ∧ hexEncodeBytes bs = cs := by
  intro n
  induction n with
  | zero =>
    intro cs hle _ _
    have hnil : cs = [] := List.eq_nil_of_length_eq_zero (Nat.le_zero.mp hle)
    subst hnil
    exact ⟨[], rfl, rfl⟩
  | succ n ih =>
    intro cs hle hmem hlen
    rcases cs with _ | ⟨c1, _ | ⟨c2, rest⟩⟩
    · exact ⟨[], rfl, rfl⟩
    · simp at hlen
    · have hrest : rest.length ≤ n := by
        simp at hle
        omega
      have hrlen : rest.length % 2 = 0 := by
        simp at hlen
        omega
      obtain ⟨bs, hd, he⟩ :=
        ih rest hrest (fun c hc => hmem c (by simp [hc])) hrlen
      obtain ⟨b, hp, hb⟩ :=
        decodePair_lower (hmem c1 (by simp)) (hmem c2 (by simp))
      refine ⟨b :: bs, ?_, ?_⟩
      · simp [hexDecodeBytes, hp, hd]
      · simp [hexEncodeBytes] at he ⊢
        simp [hb, he]

theorem hexDecode_encode (cs : List Char) (hmem : ∀ c ∈ cs, c ∈ lowerHexChars)
    (hlen : cs.length % 2 = 0) :
    ∃ bs, hexDecodeBytes cs = some bs ∧ hexEncodeBytes bs = cs :=
  hexDecode_encode_len cs.length cs le_rfl hmem hlen

theorem parseHash_roundtrip (cs : List Char) (hlen : cs.length = 64)
    (hmem : ∀ c ∈ cs, c ∈ lowerHexChars) :
    ∃ bs, parseHash ("0x" ++ String.mk cs) = some bs ∧
      renderBytes bs = "0x" ++ String.mk cs := by
  obtain ⟨bs, hd, he⟩ := hexDecode_encode cs hmem (by omega)
  refine ⟨bs, ?_, ?_⟩
  · simp [parseHash, parseFixedHex, String.data_append, hlen, hd]
  · simp [renderBytes, hexEncode, he]

/- Properties of the bulk sort. -/

theorem sortByNonce_perm (l : List TransactionData) :
    List.Perm (sortByNonce l) l :=
  List.perm_insertionSort nonceLe l

theorem sortByNonce_sorted (l : List TransactionData) :
    List.Sorted nonceLe (sortByNonce l) :=
  List.sorted_insertionSort nonceLe l

theorem filter_orderedInsert (k : Nat) (a : TransactionData)
    (s : List TransactionData) :
    (List.orderedInsert nonceLe a s).filter (fun t => nonceKey t == k) =
      if nonceKey a == k then
        a :: s.filter (fun t => nonceKey t == k)
      else s.filter (fun t => nonceKey t == k) := by
  induction s with
  | nil =>
    cases hpa : (nonceKey a == k) <;>
      simp [List.orderedInsert, List.filter, hpa]
  | cons b s' ih =>
    by_cases hab : nonceLe a b
    · cases hpa : (nonceKey a == k) <;> cases hpb : (nonceKey b == k) <;>
        simp [List.orderedInsert, hab, List.filter, hpa, hpb]
    · have hba : nonceKey b < nonceKey a := by
        unfold nonceLe at hab
        omega
      cases hpb : (nonceKey b == k) with
      | false => simp [List.orderedInsert, hab, List.filter, hpb, ih]
      | true =>
        have hak : (nonceKey a == k) = false := by
          simp only [beq_iff_eq] at hpb
          simp only [beq_eq_false_iff_ne]
          omega
        simp [List.orderedInsert, hab, List.filter, hpb, ih, hak]

theorem sortByNonce_stable (l : List TransactionData) (k : Nat) :
    (sortByNonce l).filter (fun t => nonceKey t == k) =
      l.filter (fun t => nonceKey t == k) := by
  induction l with
  | nil => rfl
  | cons a l' ih =>
    simp only [sortByNonce, List.insertionSort] at ih ⊢
    rw [filter_orderedInsert]
    cases hpa : (nonceKey a == k) <;> simp [List.filter, hpa, ih]

/- Properties of the bulk fetch loop. -/

theorem bulkFetch_append (o : ChainOracle) (xs ys : List (List Nat)) :
    bulkFetch o (xs ++ ys) =
      ⟨(bulkFetch o xs).records ++ (bulkFetch o ys).records,
       (bulkFetch o xs).calls ++ (bulkFetch o ys).calls,
       (bulkFetch o xs).warnings ++ (bulkFetch o ys).warnings⟩ := by
  induction xs with
  | nil => simp [bulkFetch]
  | cons h t ih =>
    cases hd : o.get_tx_details h with
    | error e => simp [bulkFetch, hd, ih]
    | ok d =>
      cases hsg : o.get_signatures h with
      | error e => simp [bulkFetch, hd, hsg, ih]
      | ok sigs => simp [bulkFetch, hd, hsg, ih]

theorem bulkFetch_all_ok (o : ChainOracle) (hs : List (List Nat))
    (hok : ∀ h ∈ hs, ∃ d, o.get_tx_details h = .ok d) :
    (bulkFetch o hs).records.length = hs.length ∧
      (bulkFetch o hs).warnings = [] := by
  induction hs with
  | nil => exact ⟨rfl, rfl⟩
  | cons h t ih =>
    obtain ⟨d, hd⟩ := hok h (by simp)
    obtain ⟨ihl, ihw⟩ := ih (fun h' hh' => hok h' (by simp [hh']))
    cases hsg : o.get_signatures h with
    | error e => exact ⟨by simp [bulkFetch, hd, hsg, ihl], by simp [bulkFetch, hd, hsg, ihw]⟩
    | ok sigs => exact ⟨by simp [bulkFetch, hd, hsg, ihl], by simp [bulkFetch, hd, hsg, ihw]⟩

theorem bulkFetch_err (o : ChainOracle) (h : List Nat) (e : String)
    (he : o.get_tx_details h = .error e) :
    bulkFetch o [h] = ⟨[], [NetCall.callGetTxDetails h], [h]⟩ := by
  simp [bulkFetch, he]

/-- The fetch phase can only fail with a fetch-related error: in
particular it never produces the wallet-not-found or the
pool-contract-not-found outcome. -/
theorem fetchPhase_no_verify_error (o : ChainOracle) (a : List Nat)
    (hs : Option String) :
    ∀ e, (fetchPhase o a hs).outcome = Except.error e →
      (∀ n, e ≠ ExecError.walletNotFound n) ∧
        (∀ p n, e ≠ ExecError.poolNotFound p n) := by
  intro e he
  unfold fetchPhase at he
  split at he <;>
    (repeat' split at he) <;>
    simp at he <;>
    (try subst he) <;>
    exact ⟨fun n => by simp, fun p n => by simp⟩

/-- Full evaluation of a successful single lookup. -/
theorem execute_single_ok (o : ChainOracle) (safe txh : String)
    (tx_pool : Option String) (a p h wc pc : List Nat) (cid : Nat)
    (d : TxDetails) (sigs : List (List Nat))
    (hsafe : parseAddress safe = some a)
    (hcid : o.get_chainid = Except.ok cid)
    (hwc : o.get_code a = Except.ok wc) (hwne : wc ≠ [])
    (hpool : resolve_pool_address tx_pool cid = Except.ok p)
    (hpc : o.get_code p = Except.ok pc) (hpne : pc ≠ [])
    (hph : parseHash txh = some h)
    (hd : o.get_tx_details h = Except.ok d)
    (hz : d.proposer ≠ zeroAddress)
    (hsig : o.get_signatures h = Except.ok sigs) :
    execute safe (some txh) tx_pool o =
      ⟨Except.ok (ExecOutput.single (mkTransactionData h d (sigs.map renderBytes))),
       [NetCall.getChainId, NetCall.getCode a, NetCall.getCode p,
        NetCall.callGetTxDetails h, NetCall.callGetSignatures h], []⟩ := by
  simp only [execute, hsafe, hcid, hwc, if_neg hwne, hpool, hpc, if_neg hpne,
    fetchPhase, hph, hd, if_neg hz, hsig]
  rfl

/-- Full evaluation of bulk mode once the hash list is non-empty. -/
theorem execute_bulk_ok (o : ChainOracle) (safe : String)
    (tx_pool : Option String) (a p wc pc : List Nat) (cid : Nat)
    (hs : List (List Nat))
    (hsafe : parseAddress safe = some a)
    (hcid : o.get_chainid = Except.ok cid)
    (hwc : o.get_code a = Except.ok wc) (hwne : wc ≠ [])
    (hpool : resolve_pool_address tx_pool cid = Except.ok p)
    (hpc : o.get_code p = Except.ok pc) (hpne : pc ≠ [])
    (hlist : o.get_pending_tx_hashes a = Except.ok hs)
    (hne : hs ≠ []) :
    execute safe none tx_pool o =
      ⟨Except.ok (ExecOutput.multiple (sortByNonce (bulkFetch o hs).records)),
       [NetCall.getChainId, NetCall.getCode a, NetCall.getCode p,
        NetCall.callGetPendingTxHashes a] ++ (bulkFetch o hs).calls,
       (bulkFetch o hs).warnings⟩ := by
  simp only [execute, hsafe, hcid, hwc, if_neg hwne, hpool, hpc, if_neg hpne,
    fetchPhase, hlist, if_neg hne]
  rfl

/- Claim theorems. -/

/-- C8: the network resolver is total over every chain ID: each of the
eight recognized IDs maps to its exact documented display name and pool
address, and every unrecognized ID maps to the fixed "Unknown Network"
name and the single hard-coded fallback pool address. -/
theorem resolver_total :
    (get_network_name MAINNET = "Ethereum Mainnet" ∧
     get_network_name GOERLI = "Goerli Testnet" ∧
     get_network_name SEPOLIA = "Sepolia Testnet" ∧
     get_network_name POLYGON = "Polygon" ∧
     get_network_name ARBITRUM = "Arbitrum" ∧
     get_network_name OPTIMISM = "Optimism" ∧
     get_network_name BASE = "Base" ∧
     get_network_name GNOSIS = "Gnosis Chain") ∧
    (get_safe_tx_pool_address MAINNET = "0x6b8e1f0D2c34A0AeaD9A25B6966f7C0CAD653E5c" ∧
     get_safe_tx_pool_address GOERLI = "0x3A4fA54b8AaB5E2E2DBD0a41f41f629e4e71e2E7" ∧
     get_safe_tx_pool_address SEPOLIA = "0xa2ad21dc93B362570D0159b9E3A2fE5D8ecA0424" ∧
     get_safe_tx_pool_address POLYGON = "0xA3B9Ff95a78e04845a82ee5F75595E7bDaB8723D" ∧
     get_safe_tx_pool_address ARBITRUM = "0x7c4A2Db70E5f39BA5Db11B8A942f02A8D3B3aA1B" ∧
     get_safe_tx_pool_address OPTIMISM = "0x6E4d941A6fAD76B3d26E0c5447B4f5A7EfcA8ab8" ∧
     get_safe_tx_pool_address BASE = "0x2d340e22C5A33c1Ea01DAC41E331b7FE4c033C3b" ∧
     get_safe_tx_pool_address GNOSIS = "0x8d0C7BC9c4c588534dC1BF96d3ee9A4bCcBf28C7") ∧
    (∀ chain_id : Nat, chain_id ∉ recognizedChainIds →
      get_network_name chain_id = "Unknown Network" ∧
      get_safe_tx_pool_address chain_id = DEFAULT_SAFE_TX_POOL_ADDRESS) := by
  refine ⟨by decide, by decide, ?_⟩
  intro n hn
  simp [recognizedChainIds, MAINNET, GOERLI, SEPOLIA, POLYGON, ARBITRUM,
    OPTIMISM, BASE, GNOSIS] at hn
  obtain ⟨h1, h5, h11, h137, h42, h10, h84, h100⟩ := hn
  exact ⟨by simp [get_network_name, MAINNET, GOERLI, SEPOLIA, POLYGON,
      ARBITRUM, OPTIMISM, BASE, GNOSIS, h1, h5, h11, h137, h42, h10, h84, h100],
    by simp [get_safe_tx_pool_address, SAFE_TX_POOL_ADDRESSES, MAINNET,
      GOERLI, SEPOLIA, POLYGON, ARBITRUM, OPTIMISM, BASE, GNOSIS,
      h1, h5, h11, h137, h42, h10, h84, h100]⟩

/-- C8 witness: at the unrecognized chain ID 2 the resolver yields the
"Unknown Network" name and the fallback pool address. -/
theorem resolver_total_witness :
    get_network_name 2 = "Unknown Network" ∧
      get_safe_tx_pool_address 2 = DEFAULT_SAFE_TX_POOL_ADDRESS :=
  resolver_total.2.2 2 (by decide)

/-- C10: for every unrecognized chain ID the fallback pool address is
byte-for-byte the address configured for Ethereum mainnet (chain ID 1). -/
theorem fallback_pool_is_mainnet :
    ∀ chain_id : Nat, chain_id ∉ recognizedChainIds →
      get_safe_tx_pool_address chain_id = get_safe_tx_pool_address MAINNET := by
  intro n hn
  simp [recognizedChainIds, MAINNET, GOERLI, SEPOLIA, POLYGON, ARBITRUM,
    OPTIMISM, BASE, GNOSIS] at hn
  obtain ⟨h1, h5, h11, h137, h42, h10, h84, h100⟩ := hn
  simp [get_safe_tx_pool_address, SAFE_TX_POOL_ADDRESSES,
    DEFAULT_SAFE_TX_POOL_ADDRESS, MAINNET, GOERLI, SEPOLIA, POLYGON,
    ARBITRUM, OPTIMISM, BASE, GNOSIS, h1, h5, h11, h137, h42, h10, h84, h100]

/-- C10 witness: chain ID 999 resolves to the mainnet pool address. -/
theorem fallback_pool_is_mainnet_witness :
    get_safe_tx_pool_address 999 = get_safe_tx_pool_address MAINNET :=
  fallback_pool_is_mainnet 999 (by decide)

/-- C2 counterexample: with a syntactically invalid pool override the
invocation does fail with the invalid-override error, but only after
network calls were already made — the trace contains the chain-ID query
and the wallet code query, refuting "before any network call is made". -/
theorem invalid_override_after_network_calls :
    (execute safeS none (some "zzz") baseOracle).outcome =
        Except.error ExecError.invalidPoolOverride ∧
      NetCall.getChainId ∈ (execute safeS none (some "zzz") baseOracle).calls ∧
      NetCall.getCode safeBytes ∈ (execute safeS none (some "zzz") baseOracle).calls := by
  decide

/-- C2 amended: when the chain-ID query succeeds and the wallet code
query succeeds with non-empty code, an invalid pool override fails with
the InvalidAddress error before any pool-related network call — the
trace consists of exactly the chain-ID query and the wallet code query,
with no pool code query and no contract call. -/
theorem invalid_override_fails_before_pool_calls
    (o : ChainOracle) (safe custom : String) (hash : Option String)
    (a wc : List Nat) (cid : Nat)
    (hsafe : parseAddress safe = some a)
    (hcid : o.get_chainid = Except.ok cid)
    (hwc : o.get_code a = Except.ok wc) (hwne : wc ≠ [])
    (hov : parseAddress custom = none) :
    (execute safe hash (some custom) o).outcome =
        Except.error ExecError.invalidPoolOverride ∧
      (execute safe hash (some custom) o).calls =
        [NetCall.getChainId, NetCall.getCode a] := by
  have hexec : execute safe hash (some custom) o =
      ⟨Except.error ExecError.invalidPoolOverride,
       [NetCall.getChainId, NetCall.getCode a], []⟩ := by
    simp [execute, hsafe, hcid, hwc, if_neg hwne, resolve_pool_address, hov]
  rw [hexec]
  exact ⟨rfl, rfl⟩

/-- C2 witness: concrete invalid override on the all-success oracle. -/
theorem invalid_override_fails_before_pool_calls_witness :
    (execute safeS none (some "zzz") baseOracle).outcome =
        Except.error ExecError.invalidPoolOverride ∧
      (execute safeS none (some "zzz") baseOracle).calls =
        [NetCall.getChainId, NetCall.getCode safeBytes] :=
  invalid_override_fails_before_pool_calls baseOracle safeS "zzz" none
    safeBytes [96] 1 (by decide) rfl rfl (by decide) rfl

/-- Byte form of the mainnet (and fallback) pool address. -/
def mainnetPoolBytes : List Nat :=
  [107, 142, 31, 13, 44, 52, 160, 174, 173, 154, 37, 182, 150, 111, 124, 12,
   173, 101, 62, 92]

/-- A canonical 64-lowercase-hex-digit hash string. -/
def hashS : String := "0x" ++ String.mk (List.replicate 64 'a')

/-- Byte form of `hashS`. -/
def hashA : List Nat := List.replicate 32 170

/-- Oracle whose details call reports the zero-proposer sentinel. -/
def zeroOracle : ChainOracle :=
  { baseOracle with get_tx_details := fun _ => .ok zeroPropDetails }

/-- C6: in single-lookup mode, a successful details call whose proposer is
the all-zero sentinel makes the invocation fail with the not-found error,
and no signatures call is attempted. -/
theorem single_zero_proposer_notfound_no_sig_call
    (o : ChainOracle) (safe txh : String) (tx_pool : Option String)
    (a p h wc pc : List Nat) (cid : Nat) (d : TxDetails)
    (hsafe : parseAddress safe = some a)
    (hcid : o.get_chainid = Except.ok cid)
    (hwc : o.get_code a = Except.ok wc) (hwne : wc ≠ [])
    (hpool : resolve_pool_address tx_pool cid = Except.ok p)
    (hpc : o.get_code p = Except.ok pc) (hpne : pc ≠ [])
    (hph : parseHash txh = some h)
    (hd : o.get_tx_details h = Except.ok d)
    (hz : d.proposer = zeroAddress) :
    (execute safe (some txh) tx_pool o).outcome =
        Except.error ExecError.txNotFound ∧
      (execute safe (some txh) tx_pool o).calls =
        [NetCall.getChainId, NetCall.getCode a, NetCall.getCode p,
         NetCall.callGetTxDetails h] ∧
      ∀ h', NetCall.callGetSignatures h' ∉ (execute safe (some txh) tx_pool o).calls := by
  have hexec : execute safe (some txh) tx_pool o =
      ⟨Except.error ExecError.txNotFound,
       [NetCall.getChainId, NetCall.getCode a, NetCall.getCode p,
        NetCall.callGetTxDetails h], []⟩ := by
    simp [execute, hsafe, hcid, hwc, if_neg hwne, hpool, hpc, if_neg hpne,
      fetchPhase, hph, hd, if_pos hz]
  refine ⟨by rw [hexec], by rw [hexec], ?_⟩
  intro h'
  rw [hexec]
  simp

/-- C6 witness: concrete zero-proposer single lookup. -/
theorem single_zero_proposer_notfound_no_sig_call_witness :
    (execute safeS (some hashS) none zeroOracle).outcome =
        Except.error ExecError.txNotFound ∧
      (execute safeS (some hashS) none zeroOracle).calls =
        [NetCall.getChainId, NetCall.getCode safeBytes,
         NetCall.getCode mainnetPoolBytes, NetCall.callGetTxDetails hashA] ∧
      NetCall.callGetSignatures hashA ∉ (execute safeS (some hashS) none zeroOracle).calls := by
  have w := single_zero_proposer_notfound_no_sig_call zeroOracle safeS hashS
    none safeBytes mainnetPoolBytes hashA [96] [96] 1 zeroPropDetails
    (by decide) rfl rfl (by decide) (by decide) rfl (by decide) (by decide)
    rfl (by decide)
  exact ⟨w.1, w.2.1, w.2.2 hashA⟩

/-- C7: the deployment check succeeds iff the returned code is non-empty,
for the wallet and for the pool contract, and the two failures are
distinct named outcomes (wallet-not-found names the network;
pool-contract-not-found names the pool address and the network) that are
never equal to one another. -/
theorem verify_deployed_iff_code_nonempty
    (o : ChainOracle) (safe : String) (hash tx_pool : Option String)
    (a p wc pc : List Nat) (cid : Nat)
    (hsafe : parseAddress safe = some a)
    (hcid : o.get_chainid = Except.ok cid)
    (hwc : o.get_code a = Except.ok wc)
    (hpool : resolve_pool_address tx_pool cid = Except.ok p)
    (hpc : o.get_code p = Except.ok pc) :
    ((execute safe hash tx_pool o).outcome =
        Except.error (ExecError.walletNotFound (get_network_name cid)) ↔
      wc = []) ∧
    ((execute safe hash tx_pool o).outcome =
        Except.error (ExecError.poolNotFound p (get_network_name cid)) ↔
      wc ≠ [] ∧ pc = []) ∧
    (∀ n1 p2 n2, ExecError.walletNotFound n1 ≠ ExecError.poolNotFound p2 n2) := by
  by_cases hw : wc = []
  · have hexec : (execute safe hash tx_pool o).outcome =
        Except.error (ExecError.walletNotFound (get_network_name cid)) := by
      simp [execute, hsafe, hcid, hwc, hw]
    refine ⟨⟨fun _ => hw, fun _ => hexec⟩, ⟨?_, fun hconj => absurd hw hconj.1⟩,
      fun n1 p2 n2 => by simp⟩
    intro hcontra
    rw [hexec] at hcontra
    simp at hcontra
  · by_cases hp : pc = []
    · have hexec : (execute safe hash tx_pool o).outcome =
          Except.error (ExecError.poolNotFound p (get_network_name cid)) := by
        simp [execute, hsafe, hcid, hwc, if_neg hw, hpool, hpc, hp]
      refine ⟨⟨?_, fun hwempty => absurd hwempty hw⟩,
        ⟨fun _ => ⟨hw, hp⟩, fun _ => hexec⟩, fun n1 p2 n2 => by simp⟩
      intro hcontra
      rw [hexec] at hcontra
      simp at hcontra
    · have hexec : (execute safe hash tx_pool o).outcome =
          (fetchPhase o a hash).outcome := by
        simp [execute, hsafe, hcid, hwc, if_neg hw, hpool, hpc, if_neg hp]
      refine ⟨⟨?_, fun hwempty => absurd hwempty hw⟩,
        ⟨?_, fun hconj => absurd hconj.2 hp⟩, fun n1 p2 n2 => by simp⟩
      · intro hcontra
        rw [hexec] at hcontra
        exact absurd rfl
          ((fetchPhase_no_verify_error o a hash _ hcontra).1 (get_network_name cid))
      · intro hcontra
        rw [hexec] at hcontra
        exact absurd rfl
          ((fetchPhase_no_verify_error o a hash _ hcontra).2 p (get_network_name cid))

/-- C7 witness: with empty wallet code the outcome is exactly the
wallet-not-found error, and the two failure outcomes are distinct. -/
theorem verify_deployed_iff_code_nonempty_witness :
    ((execute safeS none none { baseOracle with get_code := fun _ => .ok [] }).outcome =
        Except.error (ExecError.walletNotFound (get_network_name 1)) ↔
      ([] : List Nat) = []) ∧
      ExecError.walletNotFound "Ethereum Mainnet" ≠
        ExecError.poolNotFound mainnetPoolBytes "Ethereum Mainnet" := by
  have w := verify_deployed_iff_code_nonempty
    { baseOracle with get_code := fun _ => .ok [] } safeS none none
    safeBytes mainnetPoolBytes [] [] 1
    (by decide) rfl rfl (by decide) rfl
  exact ⟨w.1, w.2.2 "Ethereum Mainnet" mainnetPoolBytes "Ethereum Mainnet"⟩

/-- C1 counterexample: a bulk run in which the details call succeeds with
the all-zero proposer sentinel. A record IS constructed and included in
the output (its proposer renders as the zero address) and no warning is
logged, refuting "no TransactionRecord is constructed ... skipped with a
logged warning ... every record has a non-zero proposer". -/
theorem bulk_zero_proposer_not_skipped :
    (outputRecords (execute safeS none none zeroOracle)).map
        (fun t => t.proposer) =
        ["0x0000000000000000000000000000000000000000"] ∧
      (execute safeS none none zeroOracle).warnings = [] := by
  decide

/-- C1 amended: in bulk mode a hash whose details call succeeds always
yields a record that is included in the output — even when the proposer
is the all-zero sentinel — and no warning is logged for it; only hashes
whose details call fails are skipped with a warning. (Stated for a
one-hash pending list; the proposer of `d` is unconstrained.) -/
theorem bulk_details_ok_always_record
    (o : ChainOracle) (safe : String) (tx_pool : Option String)
    (a p h wc pc : List Nat) (cid : Nat) (d : TxDetails)
    (sigs : List (List Nat))
    (hsafe : parseAddress safe = some a)
    (hcid : o.get_chainid = Except.ok cid)
    (hwc : o.get_code a = Except.ok wc) (hwne : wc ≠ [])
    (hpool : resolve_pool_address tx_pool cid = Except.ok p)
    (hpc : o.get_code p = Except.ok pc) (hpne : pc ≠ [])
    (hlist : o.get_pending_tx_hashes a = Except.ok [h])
    (hd : o.get_tx_details h = Except.ok d)
    (hsig : o.get_signatures h = Except.ok sigs) :
    (execute safe none tx_pool o).outcome =
        Except.ok (ExecOutput.multiple
          [mkTransactionData h d (sigs.map renderBytes)]) ∧
      (execute safe none tx_pool o).warnings = [] := by
  have hexec := execute_bulk_ok o safe tx_pool a p wc pc cid [h]
    hsafe hcid hwc hwne hpool hpc hpne hlist (by simp)
  have hbf : bulkFetch o [h] =
      ⟨[mkTransactionData h d (sigs.map renderBytes)],
       [NetCall.callGetTxDetails h, NetCall.callGetSignatures h], []⟩ := by
    simp [bulkFetch, hd, hsig]
  rw [hexec, hbf]
  exact ⟨rfl, rfl⟩

/-- C1 amended witness: concrete zero-proposer bulk run. -/
theorem bulk_details_ok_always_record_witness :
    (execute safeS none none zeroOracle).outcome =
        Except.ok (ExecOutput.multiple
          [mkTransactionData hash1 zeroPropDetails ([[13, 14]].map renderBytes)]) ∧
      (execute safeS none none zeroOracle).warnings = [] :=
  bulk_details_ok_always_record zeroOracle safeS none safeBytes
    mainnetPoolBytes hash1 [96] [96] 1 zeroPropDetails [[13, 14]]
    (by decide) rfl rfl (by decide) (by decide) rfl (by decide) rfl rfl rfl

/-- Oracle whose signatures call always fails. -/
def sigFailOracle : ChainOracle :=
  { baseOracle with get_signatures := fun _ => .error "revert" }

/-- C3 counterexample: in a bulk run whose signatures call fails, the
record is indeed reported with an empty signature list, but the
degradation IS silent — the warning list is empty, refuting "observable
via a warning-level message naming the offending hash". -/
theorem bulk_sig_failure_silent :
    (outputRecords (execute safeS none none sigFailOracle)).map
        (fun t => t.signatures) = [[]] ∧
      (execute safeS none none sigFailOracle).warnings = [] := by
  decide

/-- C3 amended: in bulk mode a hash whose signatures call fails is still
reported as a record with an empty signature list, but no warning is
emitted for it — only details-call failures produce warnings. (Stated
for a one-hash pending list.) -/
theorem bulk_sig_failure_empty_sigs_no_warning
    (o : ChainOracle) (safe : String) (tx_pool : Option String)
    (a p h wc pc : List Nat) (cid : Nat) (d : TxDetails) (e : String)
    (hsafe : parseAddress safe = some a)
    (hcid : o.get_chainid = Except.ok cid)
    (hwc : o.get_code a = Except.ok wc) (hwne : wc ≠ [])
    (hpool : resolve_pool_address tx_pool cid = Except.ok p)
    (hpc : o.get_code p = Except.ok pc) (hpne : pc ≠ [])
    (hlist : o.get_pending_tx_hashes a = Except.ok [h])
    (hd : o.get_tx_details h = Except.ok d)
    (hsig : o.get_signatures h = Except.error e) :
    (execute safe none tx_pool o).outcome =
        Except.ok (ExecOutput.multiple [mkTransactionData h d []]) ∧
      (execute safe none tx_pool o).warnings = [] := by
  have hexec := execute_bulk_ok o safe tx_pool a p wc pc cid [h]
    hsafe hcid hwc hwne hpool hpc hpne hlist (by simp)
  have hbf : bulkFetch o [h] =
      ⟨[mkTransactionData h d []],
       [NetCall.callGetTxDetails h, NetCall.callGetSignatures h], []⟩ := by
    simp [bulkFetch, hd, hsig]
  rw [hexec, hbf]
  exact ⟨rfl, rfl⟩

/-- C3 amended witness: concrete signatures-failure bulk run. -/
theorem bulk_sig_failure_empty_sigs_no_warning_witness :
    (execute safeS none none sigFailOracle).outcome =
        Except.ok (ExecOutput.multiple [mkTransactionData hash1 okDetails []]) ∧
      (execute safeS none none sigFailOracle).warnings = [] :=
  bulk_sig_failure_empty_sigs_no_warning sigFailOracle safeS none safeBytes
    mainnetPoolBytes hash1 [96] [96] 1 okDetails "revert"
    (by decide) rfl rfl (by decide) (by decide) rfl (by decide) rfl rfl rfl

/-- C4: in bulk mode, when the details fetch fails for exactly one hash
of the pending list and succeeds for all others, the invocation still
returns records — one per surviving hash, so N−1 of them — and logs a
warning naming exactly the failed hash. -/
theorem bulk_partial_failure_tolerance
    (o : ChainOracle) (safe : String) (tx_pool : Option String)
    (a p wc pc : List Nat) (cid : Nat)
    (l1 l2 : List (List Nat)) (hbad : List Nat) (e : String)
    (hsafe : parseAddress safe = some a)
    (hcid : o.get_chainid = Except.ok cid)
    (hwc : o.get_code a = Except.ok wc) (hwne : wc ≠ [])
    (hpool : resolve_pool_address tx_pool cid = Except.ok p)
    (hpc : o.get_code p = Except.ok pc) (hpne : pc ≠ [])
    (hlist : o.get_pending_tx_hashes a = Except.ok (l1 ++ hbad :: l2))
    (hok : ∀ h ∈ l1 ++ l2, ∃ d, o.get_tx_details h = Except.ok d)
    (hbadf : o.get_tx_details hbad = Except.error e) :
    (execute safe none tx_pool o).outcome =
        Except.ok (ExecOutput.multiple
          (sortByNonce (bulkFetch o (l1 ++ hbad :: l2)).records)) ∧
      (outputRecords (execute safe none tx_pool o)).length =
        (l1 ++ hbad :: l2).length - 1 ∧
      (execute safe none tx_pool o).warnings = [hbad] := by
  have hne : l1 ++ hbad :: l2 ≠ [] := by
    cases l1 <;> simp
  have hexec := execute_bulk_ok o safe tx_pool a p wc pc cid
    (l1 ++ hbad :: l2) hsafe hcid hwc hwne hpool hpc hpne hlist hne
  obtain ⟨hl1len, hl1w⟩ := bulkFetch_all_ok o l1
    (fun h hh => hok h (by simp [hh]))
  obtain ⟨hl2len, hl2w⟩ := bulkFetch_all_ok o l2
    (fun h hh => hok h (by simp [hh]))
  have hb := bulkFetch_err o hbad e hbadf
  have hsplit : l1 ++ hbad :: l2 = (l1 ++ [hbad]) ++ l2 := by simp
  have hrec : (bulkFetch o (l1 ++ hbad :: l2)).records =
      (bulkFetch o l1).records ++ (bulkFetch o l2).records := by
    rw [hsplit, bulkFetch_append, bulkFetch_append, hb]
    simp
  have hwarn : (bulkFetch o (l1 ++ hbad :: l2)).warnings = [hbad] := by
    rw [hsplit, bulkFetch_append, bulkFetch_append, hb]
    simp [hl1w, hl2w]
  refine ⟨by rw [hexec], ?_, by rw [hexec]; exact hwarn⟩
  rw [hexec]
  show (sortByNonce (bulkFetch o (l1 ++ hbad :: l2)).records).length = _
  rw [(sortByNonce_perm _).length_eq, hrec]
  simp only [List.length_append, hl1len, hl2len, List.length_cons]
  omega

/-- Oracle with three pending hashes whose details call fails exactly on
the second. -/
def partialOracle : ChainOracle :=
  { baseOracle with
    get_pending_tx_hashes := fun _ => .ok [hash1, hash2, hash3]
  , get_tx_details := fun h =>
      if h = hash2 then .error "revert" else .ok okDetails }

/-- C4 witness: three pending hashes, the second fails: two records and
one warning naming the failed hash. -/
theorem bulk_partial_failure_tolerance_witness :
    (execute safeS none none partialOracle).outcome =
        Except.ok (ExecOutput.multiple
          (sortByNonce (bulkFetch partialOracle ([hash1] ++ hash2 :: [hash3])).records)) ∧
      (outputRecords (execute safeS none none partialOracle)).length =
        ([hash1] ++ hash2 :: [hash3]).length - 1 ∧
      (execute safeS none none partialOracle).warnings = [hash2] :=
  bulk_partial_failure_tolerance partialOracle safeS none safeBytes
    mainnetPoolBytes [96] [96] 1 [hash1] [hash3] hash2 "revert"
    (by decide) rfl rfl (by decide) (by decide) rfl (by decide) rfl
    (by intro h hh
        refine ⟨okDetails, ?_⟩
        simp [partialOracle] at hh ⊢
        rcases hh with rfl | rfl <;> simp [hash1, hash2, hash3])
    (by simp [partialOracle])

/-- Spec-side ordering key, written from the spec's words rather than
from the code (for comparison with `nonceKey`): the nonce read as an
arbitrary-precision decimal number, with an unparsable nonce treated
as 0. The code's key, `nonceKey`, instead uses Rust's bounded
`parse::<u64>().unwrap_or(0)`. -/
def parseDecimalNat (s : String) : Option Nat :=
  if s.data ≠ [] ∧ s.data.all (fun c => c.isDigit) then
    some (s.data.foldl (fun acc c => acc * 10 + (c.toNat - 48)) 0)
  else none

/-- Spec-side effective nonce: decimal value, or 0 when unparsable. -/
def specNonceKey (s : String) : Nat :=
  (parseDecimalNat s).getD 0

/-- Oracle with two pending hashes whose nonces are 2^64 and 5. -/
def bigNonceOracle : ChainOracle :=
  { baseOracle with
    get_pending_tx_hashes := fun _ => .ok [hash1, hash2]
  , get_tx_details := fun h =>
      if h = hash1 then .ok { okDetails with nonce := 2 ^ 64 }
      else .ok { okDetails with nonce := 5 } }

/-- C5 counterexample: nonces 18446744073709551616 (= 2^64, a perfectly
valid decimal number) and 5. The code's `parse::<u64>().unwrap_or(0)`
maps the former to 0, so the bulk output keeps the larger nonce first —
the output is NOT sorted ascending by "nonce, unparsable treated as 0"
in the decimal-number sense the claim states. -/
theorem sort_large_nonce_misordered :
    (outputRecords (execute safeS none none bigNonceOracle)).map
        (fun t => t.nonce) = ["18446744073709551616", "5"] ∧
      (parseDecimalNat "18446744073709551616").isSome ∧
      (parseDecimalNat "5").isSome ∧
      ¬ List.Pairwise (fun x y => x ≤ y)
          ((outputRecords (execute safeS none none bigNonceOracle)).map
            (fun t => specNonceKey t.nonce)) := by
  decide

/-- C5 amended: in bulk mode the records are stably sorted ascending by
the nonce parsed as an unsigned 64-bit decimal number, where a nonce
that fails that parse (malformed, or a valid decimal exceeding
2^64 − 1) is treated as 0: the sort output is a permutation of its
input, is sorted by that key, and records with equal key keep their
input order; single-lookup mode performs no sort and emits the one
constructed record as is. -/
theorem sort_stable_by_u64_nonce
    (l : List TransactionData) (k : Nat)
    (o : ChainOracle) (safe txh : String) (tx_pool : Option String)
    (a p h wc pc : List Nat) (cid : Nat) (d : TxDetails)
    (sigs : List (List Nat))
    (hsafe : parseAddress safe = some a)
    (hcid : o.get_chainid = Except.ok cid)
    (hwc : o.get_code a = Except.ok wc) (hwne : wc ≠ [])
    (hpool : resolve_pool_address tx_pool cid = Except.ok p)
    (hpc : o.get_code p = Except.ok pc) (hpne : pc ≠ [])
    (hph : parseHash txh = some h)
    (hd : o.get_tx_details h = Except.ok d)
    (hz : d.proposer ≠ zeroAddress)
    (hsig : o.get_signatures h = Except.ok sigs) :
    List.Perm (sortByNonce l) l ∧
      List.Sorted nonceLe (sortByNonce l) ∧
      (sortByNonce l).filter (fun t => nonceKey t == k) =
        l.filter (fun t => nonceKey t == k) ∧
      (execute safe (some txh) tx_pool o).outcome =
        Except.ok (ExecOutput.single
          (mkTransactionData h d (sigs.map renderBytes))) := by
  refine ⟨sortByNonce_perm l, sortByNonce_sorted l, sortByNonce_stable l k, ?_⟩
  rw [execute_single_ok o safe txh tx_pool a p h wc pc cid d sigs
    hsafe hcid hwc hwne hpool hpc hpne hph hd hz hsig]

/-- C5 amended witness: a concrete three-record list with nonces 5, 1, 3
and a concrete successful single lookup. -/
theorem sort_stable_by_u64_nonce_witness :
    List.Perm (sortByNonce
        [mkTransactionData hash1 { okDetails with nonce := 5 } [],
         mkTransactionData hash2 { okDetails with nonce := 1 } [],
         mkTransactionData hash3 { okDetails with nonce := 3 } []])
        [mkTransactionData hash1 { okDetails with nonce := 5 } [],
         mkTransactionData hash2 { okDetails with nonce := 1 } [],
         mkTransactionData hash3 { okDetails with nonce := 3 } []] ∧
      List.Sorted nonceLe (sortByNonce
        [mkTransactionData hash1 { okDetails with nonce := 5 } [],
         mkTransactionData hash2 { okDetails with nonce := 1 } [],
         mkTransactionData hash3 { okDetails with nonce := 3 } []]) ∧
      (sortByNonce
        [mkTransactionData hash1 { okDetails with nonce := 5 } [],
         mkTransactionData hash2 { okDetails with nonce := 1 } [],
         mkTransactionData hash3 { okDetails with nonce := 3 } []]).filter
          (fun t => nonceKey t == 3) =
        ([mkTransactionData hash1 { okDetails with nonce := 5 } [],
          mkTransactionData hash2 { okDetails with nonce := 1 } [],
          mkTransactionData hash3 { okDetails with nonce := 3 } []]).filter
          (fun t => nonceKey t == 3) ∧
      (execute safeS (some hashS) none baseOracle).outcome =
        Except.ok (ExecOutput.single
          (mkTransactionData hashA okDetails ([[13, 14]].map renderBytes))) :=
  sort_stable_by_u64_nonce
    [mkTransactionData hash1 { okDetails with nonce := 5 } [],
     mkTransactionData hash2 { okDetails with nonce := 1 } [],
     mkTransactionData hash3 { okDetails with nonce := 3 } []] 3
    baseOracle safeS hashS none safeBytes mainnetPoolBytes hashA [96] [96] 1
    okDetails [[13, 14]]
    (by decide) rfl rfl (by decide) (by decide) rfl (by decide) (by decide)
    rfl (by decide) rfl

/-- C9: a hash supplied as "0x" followed by 64 lowercase hex characters
round-trips: the hash field of the emitted record is that identical
string. -/
theorem hash_roundtrip_identity (cs : List Char) (hlen : cs.length = 64)
    (hmem : ∀ c ∈ cs, c ∈ lowerHexChars) :
    (outputRecords (execute safeS (some ("0x" ++ String.mk cs)) none
        baseOracle)).map (fun t => t.hash) = ["0x" ++ String.mk cs] := by
  obtain ⟨bs, hp, hr⟩ := parseHash_roundtrip cs hlen hmem
  have hexec := execute_single_ok baseOracle safeS ("0x" ++ String.mk cs)
    none safeBytes mainnetPoolBytes bs [96] [96] 1 okDetails [[13, 14]]
    (by decide) rfl rfl (by decide) (by decide) rfl (by decide) hp rfl
    (by decide) rfl
  rw [hexec]
  show [(mkTransactionData bs okDetails ([[13, 14]].map renderBytes)).hash] = _
  rw [show (mkTransactionData bs okDetails ([[13, 14]].map renderBytes)).hash =
      renderBytes bs from rfl, hr]

/-- C9 witness: the concrete hash of 64 'a' digits round-trips. -/
theorem hash_roundtrip_identity_witness :
    (outputRecords (execute safeS (some ("0x" ++ String.mk (List.replicate 64 'a')))
        none baseOracle)).map (fun t => t.hash) =
      ["0x" ++ String.mk (List.replicate 64 'a')] :=
  hash_roundtrip_identity (List.replicate 64 'a') (by decide) (by decide)

end Vito
